import Mathlib

/-!
Verification of the source-validation module of the `valyu` Python SDK
(`valyu/validation.py`) against its natural-language specification.

The Python functions are shallowly embedded as executable Lean functions on
`String` (a Python `str` is modelled as a Lean `String`, i.e. a list of
characters; the development is faithful for ASCII inputs, and the only
Unicode-sensitive primitive, `str.isdigit`, is modelled by the ASCII digit
test).  Python regular-expression calls of the shape
`re.match("^X$", s)` are embedded by an explicit matcher for the (star-free
decomposable) language of `X`, together with the CPython semantics of `$`:
`$` matches at the end of the string, or just before a newline that is the
last character of the string.
-/

/-! ## Character classes used by the validators -/

/-- ASCII alphanumeric, the class `[a-zA-Z0-9]` of the Python patterns
(`Char.isAlpha`/`Char.isDigit` are exactly the ASCII ranges). -/
def alnumChar (c : Char) : Bool := c.isAlpha || c.isDigit

/-- The class `[a-zA-Z0-9\-]` of interior label characters. -/
def midChar (c : Char) : Bool := alnumChar c || c == '-'

/-- The class `[a-zA-Z0-9_-]` of dataset-identifier characters. -/
def idChar (c : Char) : Bool := alnumChar c || c == '_' || c == '-'

/-- `string.ascii_letters + string.digits + "-_.~!*'();:@&=+$,/?#[]"` from
`is_valid_domain_with_path`; the quote character U+0027 is written
`Char.ofNat 39`. -/
def allowedPathChar (c : Char) : Bool :=
  alnumChar c ||
  c == '-' || c == '_' || c == '.' || c == '~' || c == '!' || c == '*' ||
  c == Char.ofNat 39 || c == '(' || c == ')' || c == ';' || c == ':' ||
  c == '@' || c == '&' || c == '=' || c == '+' || c == '$' || c == ',' ||
  c == '/' || c == '?' || c == '#' || c == '[' || c == ']'

/-! ## CPython `re.match("^X$", s)` semantics

`re.match` anchors at the start; the final `$` matches either at the end of
the subject or just before a newline that is the subject's last character.
Hence `bool(re.match("^X$", s))` holds iff `X` matches all of `s`, or `s`
ends in `'\n'` and `X` matches `s` without that final newline. -/

def pyMatchDollar (X : List Char → Bool) (s : String) : Bool :=
  X s.data || (s.data.getLast? == some '\n' && X s.data.dropLast)

/-! ## `is_valid_domain` -/

/-- Matcher for one label of the domain pattern, i.e. for the piece
`[a-zA-Z0-9]([a-zA-Z0-9\-]{0,61}[a-zA-Z0-9])?` of `domain_pattern` in
`is_valid_domain`: one alphanumeric character, optionally followed by at
most 61 interior characters and a final alphanumeric character. -/
def labelMatch : List Char → Bool
  | [] => false
  | [c] => alnumChar c
  | c :: rest =>
    alnumChar c && decide (rest.length ≤ 62) && rest.dropLast.all midChar &&
      (match rest.getLast? with
       | some d => alnumChar d
       | none => false)

/-- Matcher for the whole `domain_pattern`
`^label(\.label)*$` (with `label` as in `labelMatch`): since a label never
contains `'.'`, a string is in the pattern's language iff every
`'.'`-separated component is a label. -/
def domainPatternMatch (cs : List Char) : Bool :=
  (cs.splitOn '.').all labelMatch

/-- `is_valid_domain` from `valyu/validation.py`. -/
def is_valid_domain (s : String) : Bool :=
  if '.' ∉ s.data then false
  else pyMatchDollar domainPatternMatch s && decide (s.length ≤ 253)

/-! ## `is_valid_dataset_name` -/

/-- Matcher for `dataset_pattern = ^[a-zA-Z0-9_-]+/[a-zA-Z0-9_-]+$` in
`is_valid_dataset_name`: a non-empty run of identifier characters, one
slash, and another non-empty run of identifier characters (an identifier
character is never `'/'`, so splitting at the first slash is exact). -/
def datasetPatternMatch (cs : List Char) : Bool :=
  let a := cs.takeWhile (fun c => c ≠ '/')
  match cs.dropWhile (fun c => c ≠ '/') with
  | [] => false
  | _ :: b => !a.isEmpty && a.all idChar && !b.isEmpty && b.all idChar

/-- `is_valid_dataset_name` from `valyu/validation.py`. -/
def is_valid_dataset_name (s : String) : Bool :=
  pyMatchDollar datasetPatternMatch s

/-! ## `is_valid_domain_with_path`

`domain_path.split("/", 1)` gives `parts[0]`, the characters before the
first slash, and (when a slash occurs) `parts[1]`, the characters after it.
-/

/-- The checks performed on `parts[1]` by `is_valid_domain_with_path`:
reject an empty path or a path that starts or ends with a slash, then
require every character to be in `allowed_chars`. -/
def pathCheck (b : List Char) : Bool :=
  if b = [] ∨ b.head? = some '/' ∨ b.getLast? = some '/' then false
  else b.all allowedPathChar

/-- `is_valid_domain_with_path` from `valyu/validation.py`. -/
def is_valid_domain_with_path (s : String) : Bool :=
  let dom := s.data.takeWhile (fun c => c ≠ '/')
  if is_valid_domain ⟨dom⟩ = false then false
  else if '/' ∈ s.data then
    pathCheck ((s.data.dropWhile (fun c => c ≠ '/')).tail)
  else true

/-! ## `validate_source` (URL branch added below) -/

/-- `source.startswith(("http://", "https://"))`. -/
def startsHttp (s : String) : Bool :=
  match s.data with
  | 'h' :: 't' :: 't' :: 'p' :: ':' :: '/' :: '/' :: _ => true
  | 'h' :: 't' :: 't' :: 'p' :: 's' :: ':' :: '/' :: '/' :: _ => true
  | _ => false

/-! ## `urllib.parse.urlparse`, as far as the validator consumes it

`is_valid_url_with_path` only reads `parsed.scheme` and `parsed.netloc`,
so the embedding of CPython's `urlsplit` returns that pair.  The embedded
steps (CPython `urllib/parse.py`, as of the 3.10 line):
1. strip leading WHATWG C0-control-or-space characters (code points ≤ 0x20);
2. remove every tab, CR and LF character;
3. split off `scheme:` when the part before the first `':'` is non-empty,
   starts with an ASCII letter and consists of scheme characters
   (letters, digits, `+`, `-`, `.`); the scheme is lower-cased;
4. when the remainder starts with `//`, the netloc is the run up to the
   first `/`, `?` or `#`; a netloc containing `[` without `]` (or
   conversely) raises `ValueError` (\"Invalid IPv6 URL\").
(3.11+ additionally validates bracketed hosts, and non-ASCII netlocs get
an NFKC check; both are outside the ASCII scope of this development.) -/

/-- WHATWG C0-control-or-space class used by `urlsplit`'s `lstrip`. -/
def c0OrSpace (c : Char) : Bool := c.toNat ≤ 32

/-- The tab/CR/LF characters `urlsplit` removes everywhere
(`_UNSAFE_URL_BYTES_TO_REMOVE`). -/
def unsafeUrlByte (c : Char) : Bool := c == '\t' || c == '\r' || c == '\n'

/-- CPython `scheme_chars`. -/
def schemeChar (c : Char) : Bool :=
  c.isAlpha || c.isDigit || c == '+' || c == '-' || c == '.'

/-- Scheme extraction of `urlsplit`: returns `(scheme, remainder)`;
when there is no well-formed `scheme:` prefix the scheme is empty and the
input is returned unchanged. -/
def schemeSplit (t : List Char) : List Char × List Char :=
  let pre := t.takeWhile (fun c => c ≠ ':')
  if pre.length = t.length then ([], t)
  else
    match pre with
    | [] => ([], t)
    | c :: rest =>
      if c.isAlpha && rest.all schemeChar then
        (pre.map Char.toLower, t.drop (pre.length + 1))
      else ([], t)

/-- `urlsplit`, restricted to the `(scheme, netloc)` pair; `Except.error`
models the `ValueError` raised on a netloc with unbalanced brackets. -/
def urlsplitE (s : String) : Except Unit (List Char × List Char) :=
  let t0 := s.data.dropWhile c0OrSpace
  let t := t0.filter (fun c => !unsafeUrlByte c)
  let p := schemeSplit t
  if p.2.take 2 = ['/', '/'] then
    let netloc := (p.2.drop 2).takeWhile (fun c => !(c == '/' || c == '?' || c == '#'))
    if ('[' ∈ netloc ∧ ']' ∉ netloc) ∨ (']' ∈ netloc ∧ '[' ∉ netloc) then
      Except.error ()
    else Except.ok (p.1, netloc)
  else Except.ok (p.1, [])

/-! ## `is_valid_url_with_path` -/

/-- `str.isdigit` on an ASCII string: non-empty and all digits. -/
def pyIsDigit (l : List Char) : Bool := !l.isEmpty && l.all Char.isDigit

/-- The body of the `try:` block of `is_valid_url_with_path`; an
`Except.error` is an exception escaping from `urlparse`. -/
def is_valid_url_with_pathE (s : String) : Except Unit Bool :=
  match urlsplitE s with
  | Except.error e => Except.error e
  | Except.ok (scheme, netloc0) =>
    if ¬((scheme = "http".data ∨ scheme = "https".data) ∧ netloc0 ≠ []) then
      Except.ok false
    else
      -- netloc = parsed.netloc.split(":")[0]
      let netloc := netloc0.takeWhile (fun c => c ≠ ':')
      if netloc = [] ∨ netloc.head? = some '.' ∨ netloc.getLast? = some '.' then
        Except.ok false
      else if netloc ≠ "localhost".data ∧
          pyIsDigit (netloc.filter (fun c => c ≠ '.')) = false ∧
          '.' ∉ netloc then
        Except.ok false
      else Except.ok true

/-- `is_valid_url_with_path` from `valyu/validation.py`: the
`except Exception: return False` handler around the body. -/
def is_valid_url_with_path (s : String) : Bool :=
  match is_valid_url_with_pathE s with
  | Except.error _ => false
  | Except.ok b => b

/-! ## `validate_source`, `validate_sources` -/

/-- `validate_source` from `valyu/validation.py`. -/
def validate_source (s : String) : Bool :=
  if s.data = [] then false
  else if startsHttp s then is_valid_url_with_path s
  else if '/' ∈ s.data then
    if '.' ∈ s.data then is_valid_domain_with_path s
    else if s.data.count '/' = 1 then is_valid_dataset_name s
    else false
  else if '.' ∈ s.data then is_valid_domain s
  else false

/-- The accumulating loop of `validate_sources`
(`invalid_sources.append(source)` for each failing source). -/
def collectInvalid : List String → List String → List String
  | [], acc => acc
  | s :: rest, acc =>
    if validate_source s then collectInvalid rest acc
    else collectInvalid rest (acc ++ [s])

/-- `validate_sources` from `valyu/validation.py`. -/
def validate_sources (sources : List String) : Bool × List String :=
  if sources.isEmpty then (true, [])
  else
    let invalid := collectInvalid sources []
    (decide (invalid.length = 0), invalid)

/-! ## `get_source_format_examples`, `format_validation_error` -/

/-- The dict returned by `get_source_format_examples`. -/
structure SourceFormatExamples where
  domain : List String
  domain_with_path : List String
  url_with_path : List String
  dataset : List String

/-- `get_source_format_examples` from `valyu/validation.py`. -/
def get_source_format_examples : SourceFormatExamples :=
  { domain :=
      ["example.com", "news.ycombinator.com", "paperswithcode.com",
       "wikipedia.org"]
    domain_with_path :=
      ["example.com/blog", "news.ycombinator.com/item?id=123",
       "github.com/user/repo", "docs.python.org/3/library/urllib.html"]
    url_with_path :=
      ["https://arxiv.org/abs/1706.03762", "https://example.com/path/to/page",
       "http://domain.com/specific-article"]
    dataset :=
      ["valyu/valyu-arxiv", "wiley/wiley-finance-books",
       "provider/dataset-name"] }

/-- `format_validation_error` from `valyu/validation.py` (the successive
`error_msg +=` lines become one append chain; Python's `", ".join` is
`String.intercalate ", "`). -/
def format_validation_error (invalid_sources : List String) : String :=
  let examples := get_source_format_examples
  "Invalid source format(s): " ++ String.intercalate ", " invalid_sources ++ "\n\n"
    ++ "Sources must be formatted as one of:\n"
    ++ "• Domain: " ++ String.intercalate ", " examples.domain ++ "\n"
    ++ "• Domain with path: " ++ String.intercalate ", " examples.domain_with_path ++ "\n"
    ++ "• URL with path: " ++ String.intercalate ", " examples.url_with_path ++ "\n"
    ++ "• Dataset name: " ++ String.intercalate ", " examples.dataset

/-! ## Specification-side predicates

The following definitions transcribe the wording of the specification (the
rules of §4.1 and the claims derived from them); they are compared with the
embedded code above. -/

/-- Spec wording of one domain label: 1 to 63 characters, starting and
ending with an alphanumeric character, interior characters alphanumeric or
hyphen. -/
def specLabel (l : List Char) : Bool :=
  decide (1 ≤ l.length ∧ l.length ≤ 63) &&
  (match l.head? with
   | some a => alnumChar a
   | none => false) &&
  (match l.getLast? with
   | some b => alnumChar b
   | none => false) &&
  l.tail.dropLast.all midChar

/-- Spec wording of the label grammar: one or more dot-separated labels,
each as in `specLabel`. -/
def spec_domain_grammar (cs : List Char) : Bool :=
  (cs.splitOn '.').all specLabel

/-- The Domain rule exactly as the spec states it: overall length at most
253 characters, and the string matches the label grammar. -/
def spec_domain_rule (s : String) : Bool :=
  decide (s.length ≤ 253) && spec_domain_grammar s.data

/-- The Domain rule as the code actually behaves (the amendment forced by
Python's `$`): length at most 253, and the label grammar is matched by the
whole string or by the string minus a single trailing newline. -/
def spec_domain_rule_nl (s : String) : Bool :=
  decide (s.length ≤ 253) &&
    (spec_domain_grammar s.data ||
      (s.data.getLast? == some '\n' && spec_domain_grammar s.data.dropLast))

/-- The DatasetId rule exactly as the spec states it: exactly one slash,
and the parts before and after it are non-empty and contain only letters,
digits, underscore or hyphen. -/
def spec_dataset_rule (s : String) : Bool :=
  decide (s.data.count '/' = 1) &&
  (let a := s.data.takeWhile (fun c => c ≠ '/')
   let b := (s.data.dropWhile (fun c => c ≠ '/')).tail
   !a.isEmpty && a.all idChar && !b.isEmpty && b.all idChar)

/-- The DatasetId rule as the code actually behaves (the amendment forced
by Python's `$`): the rule holds of the string, or of the string minus a
single trailing newline. -/
def spec_dataset_rule_nl (s : String) : Bool :=
  spec_dataset_rule s ||
    (s.data.getLast? == some '\n' && spec_dataset_rule ⟨s.data.dropLast⟩)

/-- Spec wording of the path condition of the DomainWithPath rule: the
suffix after the first slash is non-empty, does not start or end with a
slash, and every character belongs to the permitted set. -/
def spec_path_ok (b : List Char) : Bool :=
  !b.isEmpty && !(b.head? == some '/') && !(b.getLast? == some '/') &&
    b.all allowedPathChar

/-- Spec wording of the DomainWithPath rule: the prefix before the first
slash satisfies the Domain rule (the rule as implemented,
`is_valid_domain`), and the suffix after it satisfies `spec_path_ok`. -/
def spec_domain_path_rule (s : String) : Bool :=
  is_valid_domain ⟨s.data.takeWhile (fun c => c ≠ '/')⟩ &&
    spec_path_ok ((s.data.dropWhile (fun c => c ≠ '/')).tail)

/-- The AbsoluteUrl rule exactly as the claim states it: parse
`scheme://authority/…` on the raw string (no character stripping), require
scheme `http` or `https` and a non-empty authority, and put the host
conditions on the authority truncated at the colon. -/
def spec_url_rule_orig (s : String) : Bool :=
  let p := schemeSplit s.data
  if p.2.take 2 = ['/', '/'] then
    let netloc := (p.2.drop 2).takeWhile (fun c => !(c == '/' || c == '?' || c == '#'))
    let host := netloc.takeWhile (fun c => c ≠ ':')
    decide ((p.1 = "http".data ∨ p.1 = "https".data) ∧ netloc ≠ [] ∧ host ≠ [] ∧
      host.head? ≠ some '.' ∧ host.getLast? ≠ some '.' ∧
      (host = "localhost".data ∨ host.all (fun c => c.isDigit || c == '.') = true ∨
        '.' ∈ host))
  else false

/-- The AbsoluteUrl rule as the code actually behaves: the same host
conditions, but on the result of the real parse (`urlsplitE`), which
removes every tab, CR and LF character and fails on an authority with
unbalanced square brackets. -/
def spec_url_rule (s : String) : Bool :=
  match urlsplitE s with
  | Except.error _ => false
  | Except.ok (scheme, netloc) =>
    decide ((scheme = "http".data ∨ scheme = "https".data) ∧ netloc ≠ []) &&
    (let host := netloc.takeWhile (fun c => c ≠ ':')
     decide (host ≠ [] ∧ host.head? ≠ some '.' ∧ host.getLast? ≠ some '.') &&
     decide (host = "localhost".data ∨ host.all (fun c => c.isDigit || c == '.') = true ∨
       '.' ∈ host))

/-! ## Helper lemmas: dispatch structure of `validate_source` -/

lemma startsHttp_slash_mem {s : String} (h : startsHttp s = true) : '/' ∈ s.data := by
  unfold startsHttp at h
  split at h
  case _ heq => rw [heq]; simp
  case _ heq => rw [heq]; simp
  case _ => exact absurd h (by simp)

lemma startsHttp_ne_nil {s : String} (h : startsHttp s = true) : s.data ≠ [] := by
  unfold startsHttp at h
  split at h
  case _ heq => rw [heq]; simp
  case _ heq => rw [heq]; simp
  case _ => exact absurd h (by simp)

lemma validate_source_url {s : String} (h : startsHttp s = true) :
    validate_source s = is_valid_url_with_path s := by
  unfold validate_source
  rw [if_neg (startsHttp_ne_nil h), if_pos h]

lemma validate_source_domain_path {s : String} (h1 : startsHttp s = false)
    (h2 : '.' ∈ s.data) (h3 : '/' ∈ s.data) :
    validate_source s = is_valid_domain_with_path s := by
  unfold validate_source
  rw [if_neg (List.ne_nil_of_mem h2), if_neg (by simp [h1]), if_pos h3, if_pos h2]

lemma validate_source_domain {s : String} (h2 : '.' ∈ s.data) (h3 : '/' ∉ s.data) :
    validate_source s = is_valid_domain s := by
  have h1 : startsHttp s = false := by
    cases hs : startsHttp s with
    | false => rfl
    | true => exact absurd (startsHttp_slash_mem hs) h3
  unfold validate_source
  rw [if_neg (List.ne_nil_of_mem h2), if_neg (by simp [h1]), if_neg h3, if_pos h2]

lemma validate_source_dataset {s : String} (h1 : startsHttp s = false)
    (h3 : '/' ∈ s.data) (h2 : '.' ∉ s.data) :
    validate_source s =
      (if s.data.count '/' = 1 then is_valid_dataset_name s else false) := by
  unfold validate_source
  rw [if_neg (List.ne_nil_of_mem h3), if_neg (by simp [h1]), if_pos h3, if_neg h2]

/-! ## Helper lemmas: the domain label language -/

lemma labelMatch_eq_specLabel (l : List Char) : labelMatch l = specLabel l := by
  match l with
  | [] => rfl
  | [c] =>
    simp only [labelMatch, specLabel]
    cases h : alnumChar c <;> simp [h]
  | c :: d :: rest =>
    simp only [labelMatch, specLabel, List.getLast?_cons_cons, List.tail_cons,
      List.length_cons]
    rw [Bool.eq_iff_iff]
    simp only [Bool.and_eq_true, decide_eq_true_eq]
    cases hg : (d :: rest).getLast? with
    | none => simp at hg
    | some b =>
      constructor
      · rintro ⟨⟨⟨hc, hlen⟩, hmid⟩, hb⟩
        refine ⟨⟨⟨by omega, hc⟩, hb⟩, hmid⟩
      · rintro ⟨⟨⟨hlen, hc⟩, hb⟩, hmid⟩
        refine ⟨⟨⟨hc, by omega⟩, hmid⟩, hb⟩

lemma domainPatternMatch_eq_grammar (cs : List Char) :
    domainPatternMatch cs = spec_domain_grammar cs := by
  unfold domainPatternMatch spec_domain_grammar
  have : labelMatch = specLabel := funext labelMatch_eq_specLabel
  rw [this]

/-- On strings containing a dot, `is_valid_domain` is exactly the amended
Domain rule. -/
lemma is_valid_domain_eq_nl {s : String} (h : '.' ∈ s.data) :
    is_valid_domain s = spec_domain_rule_nl s := by
  unfold is_valid_domain spec_domain_rule_nl pyMatchDollar
  rw [if_neg (by simpa using h)]
  rw [domainPatternMatch_eq_grammar, domainPatternMatch_eq_grammar]
  rw [Bool.and_comm]

/-! ## Helper lemmas: the dataset pattern -/

lemma dropWhile_head_not {α : Type} {p : α → Bool} {l : List α} {x : α} {xs : List α}
    (h : l.dropWhile p = x :: xs) : p x = false := by
  induction l with
  | nil => simp at h
  | cons c t ih =>
    rw [List.dropWhile_cons] at h
    by_cases hc : p c = true
    · rw [if_pos hc] at h; exact ih h
    · rw [if_neg hc] at h
      cases h; simpa using hc

lemma count_dropLast_of_getLast_nl {cs : List Char} (h : cs.getLast? = some '\n') :
    cs.dropLast.count '/' = cs.count '/' := by
  have hne : cs ≠ [] := by
    intro e; rw [e] at h; simp at h
  have hg : cs.getLast hne = '\n' := by
    have h2 := List.getLast?_eq_getLast cs hne
    rw [h2] at h
    exact Option.some.inj h
  conv_rhs => rw [← List.dropLast_append_getLast hne]
  rw [hg, List.count_append]
  simp

lemma datasetPatternMatch_eq_shape {cs : List Char} (h : '/' ∈ cs) :
    datasetPatternMatch cs =
      (let a := cs.takeWhile (fun c => c ≠ '/')
       let b := (cs.dropWhile (fun c => c ≠ '/')).tail
       !a.isEmpty && a.all idChar && !b.isEmpty && b.all idChar) := by
  unfold datasetPatternMatch
  cases hr : cs.dropWhile (fun c => decide (c ≠ '/')) with
  | nil =>
    exfalso
    rw [List.dropWhile_eq_nil_iff] at hr
    have := hr '/' h
    simp at this
  | cons x b => simp [hr]

lemma datasetPatternMatch_count {cs : List Char} (h : datasetPatternMatch cs = true) :
    cs.count '/' = 1 := by
  unfold datasetPatternMatch at h
  cases hr : cs.dropWhile (fun c : Char => decide (c ≠ '/')) with
  | nil => rw [hr] at h; simp at h
  | cons x b =>
    rw [hr] at h
    simp only [Bool.and_eq_true, List.all_eq_true, Bool.not_eq_true',
      List.isEmpty_eq_false] at h
    obtain ⟨⟨⟨ha, haid⟩, hb⟩, hbid⟩ := h
    have hx : x = '/' := by
      have := dropWhile_head_not hr
      simpa using this
    have hcs : cs = cs.takeWhile (fun c : Char => decide (c ≠ '/')) ++ x :: b := by
      conv_lhs => rw [← List.takeWhile_append_dropWhile (fun c : Char => decide (c ≠ '/')) cs]
      rw [hr]
    have hca : (cs.takeWhile (fun c : Char => decide (c ≠ '/'))).count '/' = 0 := by
      rw [List.count_eq_zero]
      intro hmem
      have := List.mem_takeWhile_imp hmem
      simp at this
    have hcb : b.count '/' = 0 := by
      rw [List.count_eq_zero]
      intro hmem
      have := hbid '/' hmem
      simp [idChar, alnumChar] at this
    conv_lhs => rw [hcs]
    rw [List.count_append, hca, hx, List.count_cons, hcb]
    simp

/-! ## Helper lemmas: the URL branch -/

/-- Under the guard that the host is non-empty and does not start with a
dot, "consists only of digits and dots" (the spec's phrasing) coincides
with the code's `netloc.replace(".", "").isdigit()`. -/
lemma all_digit_dot_eq_pyIsDigit {host : List Char} (h1 : host ≠ [])
    (h2 : host.head? ≠ some '.') :
    (host.all fun c => c.isDigit || c == '.') =
      pyIsDigit (host.filter fun c => c ≠ '.') := by
  rw [Bool.eq_iff_iff]
  simp only [pyIsDigit, Bool.and_eq_true, List.all_eq_true, Bool.or_eq_true,
    beq_iff_eq, List.mem_filter, decide_eq_true_eq, Bool.not_eq_true',
    List.isEmpty_eq_false]
  obtain ⟨h, t, rfl⟩ := List.exists_cons_of_ne_nil h1
  have hh : h ≠ '.' := by
    intro e
    exact h2 (by simp [e])
  constructor
  · intro hall
    refine ⟨List.ne_nil_of_mem (List.mem_filter.mpr ⟨List.mem_cons_self h t, by simpa⟩), ?_⟩
    intro c hc
    rcases hall c hc.1 with hd | he
    · exact hd
    · exact absurd he (by simpa using hc.2)
  · rintro ⟨-, hall⟩
    intro c hc
    by_cases he : c = '.'
    · exact Or.inr he
    · exact Or.inl (hall c ⟨hc, by simpa using he⟩)

/-- `is_valid_url_with_path` computes exactly the amended AbsoluteUrl
rule. -/
lemma is_valid_url_eq_spec (s : String) :
    is_valid_url_with_path s = spec_url_rule s := by
  unfold is_valid_url_with_path is_valid_url_with_pathE spec_url_rule
  cases hu : urlsplitE s with
  | error e => rfl
  | ok p =>
    obtain ⟨scheme, netloc⟩ := p
    dsimp only
    by_cases h1 : (scheme = "http".data ∨ scheme = "https".data) ∧ netloc ≠ []
    · rw [if_neg (not_not_intro h1)]
      by_cases h2 : netloc.takeWhile (fun c => c ≠ ':') = [] ∨
          (netloc.takeWhile (fun c => c ≠ ':')).head? = some '.' ∨
          (netloc.takeWhile (fun c => c ≠ ':')).getLast? = some '.'
      · rw [if_pos h2]
        have hB : ¬(netloc.takeWhile (fun c => c ≠ ':') ≠ [] ∧
            (netloc.takeWhile (fun c => c ≠ ':')).head? ≠ some '.' ∧
            (netloc.takeWhile (fun c => c ≠ ':')).getLast? ≠ some '.') := by
          tauto
        rw [decide_eq_false hB]
        simp
      · rw [if_neg h2]
        push_neg at h2
        obtain ⟨h2a, h2b, h2c⟩ := h2
        have hdig := all_digit_dot_eq_pyIsDigit h2a h2b
        by_cases h3 : netloc.takeWhile (fun c => c ≠ ':') ≠ "localhost".data ∧
            pyIsDigit ((netloc.takeWhile (fun c => c ≠ ':')).filter (fun c => c ≠ '.')) = false ∧
            '.' ∉ netloc.takeWhile (fun c => c ≠ ':')
        · rw [if_pos h3]
          have hC : ¬(netloc.takeWhile (fun c => c ≠ ':') = "localhost".data ∨
              ((netloc.takeWhile (fun c => c ≠ ':')).all fun c => c.isDigit || c == '.') = true ∨
              '.' ∈ netloc.takeWhile (fun c => c ≠ ':')) := by
            rintro (hl | hd | hm)
            · exact h3.1 hl
            · rw [hdig] at hd
              have hf := h3.2.1
              rw [hd] at hf
              cases hf
            · exact h3.2.2 hm
          rw [decide_eq_false hC]
          simp
        · rw [if_neg h3]
          push_neg at h3
          have h3' : netloc.takeWhile (fun c => c ≠ ':') = "localhost".data ∨
              ((netloc.takeWhile (fun c => c ≠ ':')).all fun c => c.isDigit || c == '.') = true ∨
              '.' ∈ netloc.takeWhile (fun c => c ≠ ':') := by
            by_cases hl : netloc.takeWhile (fun c => c ≠ ':') = "localhost".data
            · exact Or.inl hl
            · rcases Bool.eq_false_or_eq_true
                (pyIsDigit ((netloc.takeWhile (fun c => c ≠ ':')).filter (fun c => c ≠ '.'))) with ht | hf
              · exact Or.inr (Or.inl (by rw [hdig]; exact ht))
              · exact Or.inr (Or.inr (h3 hl hf))
          rw [decide_eq_true h1, decide_eq_true ⟨h2a, h2b, h2c⟩, decide_eq_true h3']
          simp
    · rw [if_pos h1, decide_eq_false h1]
      simp

/-! ## Helper lemmas: paths, batch loop, substrings -/

lemma pathCheck_eq_spec (b : List Char) : pathCheck b = spec_path_ok b := by
  unfold pathCheck spec_path_ok
  by_cases h : b = [] ∨ b.head? = some '/' ∨ b.getLast? = some '/'
  · rw [if_pos h]
    rcases h with h | h | h
    · simp [h]
    · simp [h]
    · simp [h]
  · rw [if_neg h]
    push_neg at h
    obtain ⟨h1, h2, h3⟩ := h
    simp [List.isEmpty_eq_false.mpr h1, beq_eq_false_iff_ne.mpr h2,
      beq_eq_false_iff_ne.mpr h3]

lemma collectInvalid_eq (xs : List String) (acc : List String) :
    collectInvalid xs acc = acc ++ xs.filter (fun s => !validate_source s) := by
  induction xs generalizing acc with
  | nil => simp [collectInvalid]
  | cons s rest ih =>
    unfold collectInvalid
    by_cases hv : validate_source s = true
    · rw [if_pos hv, ih, List.filter_cons_of_neg (by simp [hv])]
    · have hv' : validate_source s = false := by simpa using hv
      rw [if_neg hv, ih, List.filter_cons_of_pos (by simp [hv'])]
      simp

/-- Executable substring test: `listContains pat l` holds iff `pat` occurs
contiguously in `l`. -/
def listContains (pat : List Char) : List Char → Bool
  | [] => pat.isEmpty
  | c :: rest => pat.isPrefixOf (c :: rest) || listContains pat rest

lemma isPrefixOf_self_append (p t : List Char) : p.isPrefixOf (p ++ t) = true := by
  induction p with
  | nil => simp [List.isPrefixOf]
  | cons c p' ih => simp [List.isPrefixOf, ih]

lemma isPrefixOf_exists {p l : List Char} (h : p.isPrefixOf l = true) :
    ∃ t, l = p ++ t := by
  induction p generalizing l with
  | nil => exact ⟨l, rfl⟩
  | cons c p' ih =>
    cases l with
    | nil => simp [List.isPrefixOf] at h
    | cons d l' =>
      simp only [List.isPrefixOf, Bool.and_eq_true, beq_iff_eq] at h
      obtain ⟨t, ht⟩ := ih h.2
      exact ⟨t, by simp [h.1, ht]⟩

lemma listContains_self_append (m q : List Char) : listContains m (m ++ q) = true := by
  cases m with
  | nil =>
    cases q with
    | nil => rfl
    | cons c rest => simp [listContains, List.isPrefixOf]
  | cons c m' =>
    have : (c :: m') ++ q = c :: (m' ++ q) := rfl
    rw [this]
    unfold listContains
    rw [show c :: (m' ++ q) = (c :: m') ++ q from rfl, isPrefixOf_self_append]
    simp

lemma listContains_append_right {m l2 : List Char} (h : listContains m l2 = true)
    (l1 : List Char) : listContains m (l1 ++ l2) = true := by
  induction l1 with
  | nil => simpa using h
  | cons c t ih =>
    have : (c :: t) ++ l2 = c :: (t ++ l2) := rfl
    rw [this]
    unfold listContains
    rw [ih]
    simp

lemma listContains_iff_exists (m l : List Char) :
    listContains m l = true ↔ ∃ p q, l = p ++ m ++ q := by
  constructor
  · intro h
    induction l with
    | nil =>
      refine ⟨[], [], ?_⟩
      unfold listContains at h
      rw [List.isEmpty_iff] at h
      simp [h]
    | cons c rest ih =>
      unfold listContains at h
      rw [Bool.or_eq_true] at h
      rcases h with hp | hr
      · obtain ⟨t, ht⟩ := isPrefixOf_exists hp
        exact ⟨[], t, by simp [ht]⟩
      · obtain ⟨p, q, hpq⟩ := ih hr
        exact ⟨c :: p, q, by simp [hpq]⟩
  · rintro ⟨p, q, rfl⟩
    rw [List.append_assoc]
    exact listContains_append_right (listContains_self_append m q) p

/-- The constant part of the message built by `format_validation_error`
after the comma-separated list of invalid sources. -/
def formatTail : String :=
  "\n\n" ++ "Sources must be formatted as one of:\n"
    ++ "• Domain: " ++ String.intercalate ", " get_source_format_examples.domain ++ "\n"
    ++ "• Domain with path: "
    ++ String.intercalate ", " get_source_format_examples.domain_with_path ++ "\n"
    ++ "• URL with path: "
    ++ String.intercalate ", " get_source_format_examples.url_with_path ++ "\n"
    ++ "• Dataset name: " ++ String.intercalate ", " get_source_format_examples.dataset

/-- The four example lists, flattened. -/
def allFormatExamples : List String :=
  get_source_format_examples.domain ++ get_source_format_examples.domain_with_path ++
    get_source_format_examples.url_with_path ++ get_source_format_examples.dataset

lemma format_validation_error_decomp (xs : List String) :
    (format_validation_error xs).data =
      ("Invalid source format(s): ".data ++ (String.intercalate ", " xs).data) ++
        formatTail.data := by
  unfold format_validation_error formatTail
  simp [String.data_append, List.append_assoc]

lemma msg_contains_intercalate (xs : List String) :
    listContains (String.intercalate ", " xs).data
      (format_validation_error xs).data = true := by
  rw [format_validation_error_decomp, List.append_assoc]
  exact listContains_append_right (listContains_self_append _ _) _

set_option maxRecDepth 10000 in
lemma tail_contains_examples :
    allFormatExamples.all (fun e => listContains e.data formatTail.data) = true := by
  decide

/-! ## The claims -/

/-- C1: for every string that does not begin with `http://` or `https://`
and contains at least one dot and at least one slash, `validate_source`
decides by the DomainWithPath rule (`is_valid_domain_with_path`) and never
by the DatasetId rule; in particular `"github.com/user/repo"` is valid,
while the dot-free `"a/b"` is decided by the DatasetId rule
(`is_valid_dataset_name`) and is valid. -/
theorem claim_C1 :
    (∀ s : String, startsHttp s = false → '.' ∈ s.data → '/' ∈ s.data →
      validate_source s = is_valid_domain_with_path s) ∧
    validate_source "github.com/user/repo" = true ∧
    validate_source "a/b" = is_valid_dataset_name "a/b" ∧
    is_valid_dataset_name "a/b" = true := by
  refine ⟨fun s h1 h2 h3 => validate_source_domain_path h1 h2 h3, by decide,
    by decide, by decide⟩

/-- Witness for C1 at the concrete input `"news.ycombinator.com/item"`. -/
theorem claim_C1_witness :
    startsHttp "news.ycombinator.com/item" = false ∧
    '.' ∈ "news.ycombinator.com/item".data ∧
    '/' ∈ "news.ycombinator.com/item".data ∧
    validate_source "news.ycombinator.com/item" =
      is_valid_domain_with_path "news.ycombinator.com/item" :=
  ⟨by decide, by decide, by decide,
    claim_C1.1 "news.ycombinator.com/item" (by decide) (by decide) (by decide)⟩

/-- C4: for every string with a dot, a slash and no scheme prefix,
`validate_source` is true iff the prefix before the first slash satisfies
the Domain rule as implemented (`is_valid_domain`) and the suffix after it
is non-empty, does not start or end with a slash, and consists of permitted
path characters; in particular `"example.com/blog"` is valid and
`"example.com/"` is not. -/
theorem claim_C4 :
    (∀ s : String, startsHttp s = false → '.' ∈ s.data → '/' ∈ s.data →
      validate_source s = spec_domain_path_rule s) ∧
    validate_source "example.com/blog" = true ∧
    validate_source "example.com/" = false := by
  refine ⟨fun s h1 h2 h3 => ?_, by decide, by decide⟩
  rw [validate_source_domain_path h1 h2 h3]
  unfold is_valid_domain_with_path spec_domain_path_rule
  dsimp only
  by_cases hd : is_valid_domain ⟨s.data.takeWhile (fun c => c ≠ '/')⟩ = false
  · rw [if_pos hd, hd]
    simp
  · rw [if_neg hd, if_pos h3, pathCheck_eq_spec]
    have ht : is_valid_domain ⟨s.data.takeWhile (fun c => c ≠ '/')⟩ = true := by
      simpa using hd
    rw [ht]
    simp

/-- Witness for C4 at the concrete input
`"docs.python.org/3/library/urllib.html"`. -/
theorem claim_C4_witness :
    startsHttp "docs.python.org/3/library/urllib.html" = false ∧
    '.' ∈ "docs.python.org/3/library/urllib.html".data ∧
    '/' ∈ "docs.python.org/3/library/urllib.html".data ∧
    validate_source "docs.python.org/3/library/urllib.html" =
      spec_domain_path_rule "docs.python.org/3/library/urllib.html" :=
  ⟨by decide, by decide, by decide,
    claim_C4.1 "docs.python.org/3/library/urllib.html" (by decide) (by decide)
      (by decide)⟩

/-- C6: every string containing neither a dot nor a slash (the empty
string and whitespace-only strings included) is rejected by
`validate_source`. -/
theorem claim_C6 :
    ∀ s : String, '.' ∉ s.data → '/' ∉ s.data → validate_source s = false := by
  intro s h2 h3
  unfold validate_source
  by_cases hn : s.data = []
  · rw [if_pos hn]
  · have h1 : startsHttp s = false := by
      cases hs : startsHttp s with
      | false => rfl
      | true => exact absurd (startsHttp_slash_mem hs) h3
    rw [if_neg hn, if_neg (by simp [h1]), if_neg h3, if_neg h2]

/-- Witness for C6 at the concrete input `"hello"`. -/
theorem claim_C6_witness :
    '.' ∉ "hello".data ∧ '/' ∉ "hello".data ∧ validate_source "hello" = false :=
  ⟨by decide, by decide, claim_C6 "hello" (by decide) (by decide)⟩

/-- C7: `validate_sources` is an order-preserving fold with no early exit:
the returned list is exactly the subsequence of inputs rejected by
`validate_source`, in order, and the flag is true iff that list is empty;
`validate_sources [] = (true, [])`, and the two-element example reports
both invalid inputs. -/
theorem claim_C7 :
    (∀ xs : List String,
      (validate_sources xs).2 = xs.filter (fun s => !validate_source s) ∧
      (validate_sources xs).1 = decide ((validate_sources xs).2 = [])) ∧
    validate_sources [] = (true, []) ∧
    validate_sources ["invalid..domain", "not-a-url"] =
      (false, ["invalid..domain", "not-a-url"]) := by
  refine ⟨fun xs => ?_, by decide, by decide⟩
  unfold validate_sources
  by_cases he : xs.isEmpty = true
  · rw [List.isEmpty_iff] at he
    subst he
    simp
  · rw [if_neg he]
    dsimp only
    rw [collectInvalid_eq]
    simp only [List.nil_append]
    refine ⟨trivial, ?_⟩
    rw [decide_eq_decide]
    exact List.length_eq_zero

/-- C10: `validate_source` accepts some strings containing a newline: the
domain and dataset patterns are checked with Python `re.match`, whose final
`$` also matches just before a single trailing newline, so
`"example.com\n"` and `"a/b\n"` are both accepted. -/
theorem claim_C10 :
    validate_source "example.com\n" = true ∧ validate_source "a/b\n" = true := by
  exact ⟨by decide, by decide⟩

/-- C3 (amended): for every string with a dot and no slash,
`validate_source` is true iff the string has length at most 253 and the
label grammar is matched by the string itself or by the string minus a
single trailing newline (Python `$` semantics); `"example.com"` is valid
and `".example.com"` is not. -/
theorem claim_C3 :
    (∀ s : String, '.' ∈ s.data → '/' ∉ s.data →
      validate_source s = spec_domain_rule_nl s) ∧
    validate_source "example.com" = true ∧
    validate_source ".example.com" = false := by
  refine ⟨fun s h2 h3 => ?_, by decide, by decide⟩
  rw [validate_source_domain h2 h3]
  exact is_valid_domain_eq_nl h2

/-- Counterexample to C3 as stated: `"example.com\n"` has a dot, no slash,
is accepted by `validate_source`, yet does not satisfy the spec's Domain
rule (its last label contains a newline). -/
theorem claim_C3_counterexample :
    '.' ∈ "example.com\n".data ∧ '/' ∉ "example.com\n".data ∧
    validate_source "example.com\n" = true ∧
    spec_domain_rule "example.com\n" = false :=
  ⟨by decide, by decide, by decide, by decide⟩

/-- Witness for C3 at the concrete input `"paperswithcode.com"`. -/
theorem claim_C3_witness :
    '.' ∈ "paperswithcode.com".data ∧ '/' ∉ "paperswithcode.com".data ∧
    validate_source "paperswithcode.com" = spec_domain_rule_nl "paperswithcode.com" :=
  ⟨by decide, by decide, claim_C3.1 "paperswithcode.com" (by decide) (by decide)⟩

/-- C2 (amended): for every string with a slash, no dot and no scheme
prefix, `validate_source` is true iff the DatasetId rule
`^[a-zA-Z0-9_-]+/[a-zA-Z0-9_-]+$` holds of the string itself or of the
string minus a single trailing newline (Python `$` semantics);
`"valyu/valyu-arxiv"` is valid. -/
theorem claim_C2 :
    (∀ s : String, startsHttp s = false → '/' ∈ s.data → '.' ∉ s.data →
      validate_source s = spec_dataset_rule_nl s) ∧
    validate_source "valyu/valyu-arxiv" = true := by
  refine ⟨fun s h1 h3 h2 => ?_, by decide⟩
  rw [validate_source_dataset h1 h3 h2]
  unfold is_valid_dataset_name pyMatchDollar spec_dataset_rule_nl
  by_cases hc : s.data.count '/' = 1
  · rw [if_pos hc]
    have e1 : datasetPatternMatch s.data = spec_dataset_rule s := by
      unfold spec_dataset_rule
      rw [datasetPatternMatch_eq_shape h3, decide_eq_true hc]
      simp
    by_cases hnl : s.data.getLast? = some '\n'
    · have hcD : s.data.dropLast.count '/' = 1 := by
        rw [count_dropLast_of_getLast_nl hnl]; exact hc
      have hmD : '/' ∈ s.data.dropLast := by
        rw [← List.count_pos_iff, hcD]
        norm_num
      have e2 : datasetPatternMatch s.data.dropLast = spec_dataset_rule ⟨s.data.dropLast⟩ := by
        unfold spec_dataset_rule
        rw [show (String.mk s.data.dropLast).data = s.data.dropLast from rfl]
        rw [datasetPatternMatch_eq_shape hmD, decide_eq_true hcD]
        simp
      rw [e1, e2]
    · have hb : (s.data.getLast? == some '\n') = false := by simpa using hnl
      rw [e1, hb]
      simp
  · rw [if_neg hc]
    have f1 : spec_dataset_rule s = false := by
      unfold spec_dataset_rule
      rw [decide_eq_false hc]
      simp
    by_cases hnl : s.data.getLast? = some '\n'
    · have hcD : ¬s.data.dropLast.count '/' = 1 := by
        rw [count_dropLast_of_getLast_nl hnl]; exact hc
      have f2 : spec_dataset_rule ⟨s.data.dropLast⟩ = false := by
        unfold spec_dataset_rule
        rw [show (String.mk s.data.dropLast).data = s.data.dropLast from rfl,
          decide_eq_false hcD]
        simp
      rw [f1, f2]
      simp
    · have hb : (s.data.getLast? == some '\n') = false := by simpa using hnl
      rw [f1, hb]
      simp

/-- Counterexample to C2 as stated: `"a/b\n"` has one slash, no dot, no
scheme prefix, is accepted by `validate_source`, yet contains a character
(the newline) outside the DatasetId alphabet. -/
theorem claim_C2_counterexample :
    startsHttp "a/b\n" = false ∧ '/' ∈ "a/b\n".data ∧ '.' ∉ "a/b\n".data ∧
    validate_source "a/b\n" = true ∧ spec_dataset_rule "a/b\n" = false :=
  ⟨by decide, by decide, by decide, by decide, by decide⟩

/-- Witness for C2 at the concrete input `"wiley/wiley-finance-books"`. -/
theorem claim_C2_witness :
    startsHttp "wiley/wiley-finance-books" = false ∧
    '/' ∈ "wiley/wiley-finance-books".data ∧
    '.' ∉ "wiley/wiley-finance-books".data ∧
    validate_source "wiley/wiley-finance-books" =
      spec_dataset_rule_nl "wiley/wiley-finance-books" :=
  ⟨by decide, by decide, by decide,
    claim_C2.1 "wiley/wiley-finance-books" (by decide) (by decide) (by decide)⟩

/-- C5 (amended): for every string beginning with `http://` or `https://`,
`validate_source` is true iff the AbsoluteUrl host rule holds of the real
parse: tab, CR and LF characters are removed first (and an authority with
unbalanced square brackets fails to parse), the authority must be
non-empty with scheme `http` or `https`, and the host — the authority up
to the first `':'` — must be non-empty, not start or end with a dot, and
be `localhost`, all digits and dots, or contain a dot;
`"https://arxiv.org/abs/1706.03762"` is valid and `"https:///path"` is
not. -/
theorem claim_C5 :
    (∀ s : String, startsHttp s = true → validate_source s = spec_url_rule s) ∧
    validate_source "https://arxiv.org/abs/1706.03762" = true ∧
    validate_source "https:///path" = false := by
  refine ⟨fun s h => ?_, by decide, by decide⟩
  rw [validate_source_url h]
  exact is_valid_url_eq_spec s

/-- Counterexample to C5 as stated: `"https://localhost\n/x"` is accepted
by `validate_source` (Python's `urlsplit` removes the newline, leaving the
host `localhost`), but the claim's rule, applied to the string as written,
sees the authority `"localhost\n"` and rejects it. -/
theorem claim_C5_counterexample :
    startsHttp "https://localhost\n/x" = true ∧
    validate_source "https://localhost\n/x" = true ∧
    spec_url_rule_orig "https://localhost\n/x" = false :=
  ⟨by decide, by decide, by decide⟩

/-- Witness for C5 at the concrete input
`"http://domain.com/specific-article"`. -/
theorem claim_C5_witness :
    startsHttp "http://domain.com/specific-article" = true ∧
    validate_source "http://domain.com/specific-article" =
      spec_url_rule "http://domain.com/specific-article" :=
  ⟨by decide, claim_C5.1 "http://domain.com/specific-article" (by decide)⟩

/-- C9: `validate_source` never raises: an exception escaping `urlparse`
(an `Except.error` of `is_valid_url_with_pathE`) is caught and turned into
the return value `false`, and on every string the result is one of the two
booleans. -/
theorem claim_C9 :
    (∀ s : String, is_valid_url_with_pathE s = Except.error () →
      is_valid_url_with_path s = false ∧
        (startsHttp s = true → validate_source s = false)) ∧
    (∀ s : String, validate_source s = true ∨ validate_source s = false) := by
  refine ⟨fun s he => ?_, fun s => Bool.eq_false_or_eq_true (validate_source s)⟩
  have h1 : is_valid_url_with_path s = false := by
    unfold is_valid_url_with_path
    rw [he]
  refine ⟨h1, fun hs => ?_⟩
  rw [validate_source_url hs]
  exact h1

/-- Witness for C9 at the concrete input `"https://[x"`, on which the
embedded `urlsplit` raises (unbalanced bracket). -/
theorem claim_C9_witness :
    is_valid_url_with_pathE "https://[x" = Except.error () ∧
    is_valid_url_with_path "https://[x" = false ∧
    validate_source "https://[x" = false := by
  have he : is_valid_url_with_pathE "https://[x" = Except.error () := by rfl
  have h := claim_C9.1 "https://[x" he
  exact ⟨he, h.1, h.2 (by decide)⟩

/-- C8: for every non-empty list of strings, the message built by
`format_validation_error` contains the input strings verbatim, joined by
`", "`, and contains every one of the example strings of the four format
categories of `get_source_format_examples`, each category holding at least
3 examples (`listContains p l` means `p` occurs contiguously in `l`, by
`listContains_iff_exists`). -/
theorem claim_C8 :
    ∀ xs : List String, xs ≠ [] →
      listContains (String.intercalate ", " xs).data
        (format_validation_error xs).data = true ∧
      (∀ e ∈ allFormatExamples,
        listContains e.data (format_validation_error xs).data = true) ∧
      3 ≤ get_source_format_examples.domain.length ∧
      3 ≤ get_source_format_examples.domain_with_path.length ∧
      3 ≤ get_source_format_examples.url_with_path.length ∧
      3 ≤ get_source_format_examples.dataset.length := by
  intro xs hne
  refine ⟨msg_contains_intercalate xs, ?_, by decide, by decide, by decide, by decide⟩
  intro e he
  have htail : listContains e.data formatTail.data = true := by
    have hall := tail_contains_examples
    rw [List.all_eq_true] at hall
    exact hall e he
  rw [format_validation_error_decomp]
  exact listContains_append_right htail _

/-- Witness for C8 at the concrete input `["bad one"]`. -/
theorem claim_C8_witness :
    (["bad one"] : List String) ≠ [] ∧
    listContains (String.intercalate ", " ["bad one"]).data
      (format_validation_error ["bad one"]).data = true :=
  ⟨by decide, (claim_C8 ["bad one"] (by decide)).1⟩
